import Mathlib

/-!
Shallow embedding of the porta-spotty backend core (src/backend/app/main.py).

The Python module keeps three module-level variables — `toilets_db : List[Toilet]`,
`ratings_db : List[dict]`, `next_toilet_id : int` — and exposes four operations:
`create_toilet`, `list_toilets`, `get_toilet`, `add_rating`, plus the helpers
`haversine_km` and `recompute_rating_stats`.  We model the mutable globals as an
explicit `AppState` threaded through the operations; a raised `HTTPException`
becomes an `ApiError` value (404 = `notFound`, 400 = `invalidInput`) returned
together with the (unchanged) state.  Python's exact ints become `Int`/`Nat`;
the float average `sum(scores)/len(scores)` becomes exact rational division;
coordinate floats and the trigonometric distance become real numbers, the
standard idealisation of the floating-point computation.
-/

namespace PortaSpotty

/-- The `Toilet` pydantic model of main.py: identifier, descriptive fields,
seven optional amenity flags, and the two derived rating statistics. -/
structure Toilet where
  id : Nat
  name : String
  latitude : ℝ
  longitude : ℝ
  is_free : Bool
  wheelchair : Option Bool
  running_water : Option Bool
  indoor : Option Bool
  open_in_winter : Option Bool
  gender_neutral : Option Bool
  baby_change : Option Bool
  menstrual_products : Option Bool
  avg_cleanliness : Option ℚ
  rating_count : Nat
deriving Inhabited

/-- The `ToiletCreate` request model: everything of `Toilet` except the
identifier and the derived statistics. -/
structure ToiletCreate where
  name : String
  latitude : ℝ
  longitude : ℝ
  is_free : Bool
  wheelchair : Option Bool
  running_water : Option Bool
  indoor : Option Bool
  open_in_winter : Option Bool
  gender_neutral : Option Bool
  baby_change : Option Bool
  menstrual_products : Option Bool

/-- The `RatingCreate` request model: a cleanliness score and an optional
comment. -/
structure RatingCreate where
  cleanliness : Int
  comment : Option String

/-- One entry of `ratings_db`: the dict `{toilet_id, cleanliness, comment}`
appended by `add_rating`. -/
structure Rating where
  toilet_id : Nat
  cleanliness : Int
  comment : Option String

/-- The module-level mutable state of main.py: the two stand-in database
lists and the id counter. -/
structure AppState where
  toilets_db : List Toilet
  ratings_db : List Rating
  next_toilet_id : Nat

/-- The state at process start: `toilets_db = []`, `ratings_db = []`,
`next_toilet_id = 1`. -/
def initialState : AppState :=
  { toilets_db := [], ratings_db := [], next_toilet_id := 1 }

/-- The two error responses the endpoints can raise: HTTP 404
("Restroom not found") and HTTP 400 ("cleanliness must be 1–5"). -/
inductive ApiError where
  | notFound
  | invalidInput
deriving DecidableEq

/-- `math.radians`: degrees to radians. -/
noncomputable def radians (x : ℝ) : ℝ := x * (Real.pi / 180)

/-- `math.atan2` on exact reals (the Python call sites only ever pass
non-negative arguments, where `atan2 y x = arctan (y/x)` for `x > 0`). -/
noncomputable def atan2 (y x : ℝ) : ℝ :=
  if 0 < x then Real.arctan (y / x)
  else if x < 0 ∧ 0 ≤ y then Real.arctan (y / x) + Real.pi
  else if x < 0 ∧ y < 0 then Real.arctan (y / x) - Real.pi
  else if x = 0 ∧ 0 < y then Real.pi / 2
  else if x = 0 ∧ y < 0 then -(Real.pi / 2)
  else 0

/-- `haversine_km(lat1, lon1, lat2, lon2)`: great-circle distance in km on a
sphere of radius 6371.0, translated line by line from main.py. -/
noncomputable def haversine_km (lat1 lon1 lat2 lon2 : ℝ) : ℝ :=
  let R : ℝ := 6371.0
  let phi1 := radians lat1
  let phi2 := radians lat2
  let dphi := radians (lat2 - lat1)
  let dlambda := radians (lon2 - lon1)
  let a := Real.sin (dphi / 2) ^ 2
    + Real.cos phi1 * Real.cos phi2 * Real.sin (dlambda / 2) ^ 2
  let c := 2 * atan2 (Real.sqrt a) (Real.sqrt (1 - a))
  R * c

/-- The list comprehension in `recompute_rating_stats`:
`scores = [r["cleanliness"] for r in ratings_db if r["toilet_id"] == toilet_id]`. -/
def ratingsFor (rs : List Rating) (tid : Nat) : List Int :=
  (rs.filter (fun r => r.toilet_id == tid)).map (fun r => r.cleanliness)

/-- The body of the `if t.id == toilet_id` branch of `recompute_rating_stats`:
set both derived fields from `scores` (Python's float division becomes exact
rational division). -/
def applyStats (t : Toilet) (scores : List Int) : Toilet :=
  if scores.isEmpty then
    { t with avg_cleanliness := none, rating_count := 0 }
  else
    { t with
        avg_cleanliness := some ((scores.sum : ℚ) / (scores.length : ℚ)),
        rating_count := scores.length }

/-- The `for t in toilets_db: if t.id == toilet_id: …; break` loop of
`recompute_rating_stats`: update the first record with the matching id,
leave everything else alone. -/
def updateFirst : List Toilet → Nat → List Int → List Toilet
  | [], _, _ => []
  | t :: rest, tid, scores =>
    if t.id == tid then applyStats t scores :: rest
    else t :: updateFirst rest tid scores

/-- `recompute_rating_stats(toilet_id)` acting on the explicit state. -/
def recompute_rating_stats (s : AppState) (toilet_id : Nat) : AppState :=
  { s with
      toilets_db :=
        updateFirst s.toilets_db toilet_id (ratingsFor s.ratings_db toilet_id) }

/-- `POST /toilets` (`create_toilet`): build the record with the next id and
null/zero derived fields, append it, bump the counter, return it. -/
def create_toilet (s : AppState) (toilet : ToiletCreate) : Toilet × AppState :=
  let new : Toilet :=
    { id := s.next_toilet_id
      name := toilet.name
      latitude := toilet.latitude
      longitude := toilet.longitude
      is_free := toilet.is_free
      wheelchair := toilet.wheelchair
      running_water := toilet.running_water
      indoor := toilet.indoor
      open_in_winter := toilet.open_in_winter
      gender_neutral := toilet.gender_neutral
      baby_change := toilet.baby_change
      menstrual_products := toilet.menstrual_products
      avg_cleanliness := none
      rating_count := 0 }
  (new, { s with
            toilets_db := s.toilets_db ++ [new]
            next_toilet_id := s.next_toilet_id + 1 })

open Classical in
/-- The accumulation loop of `GET /toilets` (`list_toilets`): keep, in order,
the records whose haversine distance from the query point is `≤ radius_km`. -/
noncomputable def list_toilets_scan (lat lng radius_km : ℝ) : List Toilet → List Toilet
  | [] => []
  | t :: rest =>
    if haversine_km lat lng t.latitude t.longitude ≤ radius_km then
      t :: list_toilets_scan lat lng radius_km rest
    else
      list_toilets_scan lat lng radius_km rest

/-- `GET /toilets` (`list_toilets`) with an explicit radius. -/
noncomputable def list_toilets (s : AppState) (lat lng radius_km : ℝ) : List Toilet :=
  list_toilets_scan lat lng radius_km s.toilets_db

/-- `GET /toilets` when the query omits `radius_km`: FastAPI substitutes the
declared default `Query(2.0, …)`. -/
noncomputable def list_toilets_default (s : AppState) (lat lng : ℝ) : List Toilet :=
  list_toilets s lat lng 2.0

/-- `GET /toilets/{toilet_id}` (`get_toilet`): first record with the matching
id, else 404. -/
def get_toilet (s : AppState) (toilet_id : Nat) : Except ApiError Toilet :=
  match s.toilets_db.find? (fun t => t.id == toilet_id) with
  | some t => Except.ok t
  | none => Except.error ApiError.notFound

/-- `POST /toilets/{toilet_id}/ratings` (`add_rating`): reject a cleanliness
outside 1–5 with 400 before anything else; otherwise look the record up (404
if absent), append the rating event, recompute the record's statistics and
return the record.  Python returns the very object the loop found, which
`recompute_rating_stats` has just mutated in place; here that object is
`applyStats t0 scores` with `scores` read from the post-append event log. -/
def add_rating (s : AppState) (toilet_id : Nat) (rating : RatingCreate) :
    Except ApiError Toilet × AppState :=
  if 1 ≤ rating.cleanliness ∧ rating.cleanliness ≤ 5 then
    match s.toilets_db.find? (fun t => t.id == toilet_id) with
    | some t0 =>
      let s1 : AppState :=
        { s with ratings_db :=
            s.ratings_db ++ [⟨toilet_id, rating.cleanliness, rating.comment⟩] }
      let s2 := recompute_rating_stats s1 toilet_id
      (Except.ok (applyStats t0 (ratingsFor s1.ratings_db toilet_id)), s2)
    | none => (Except.error ApiError.notFound, s)
  else
    (Except.error ApiError.invalidInput, s)

/-! ### States and requests used by concrete witnesses -/

/-- The "Central Park North" record creation from the spec's scenario. -/
def tcPark : ToiletCreate :=
  ⟨"Central Park North", 40.7829, -73.9654, true, none, none, none, none, none, none, none⟩

/-- A creation request with an empty name (the source accepts it). -/
def tcEmptyName : ToiletCreate :=
  ⟨"", 0, 0, true, none, none, none, none, none, none, none⟩

def rc0 : RatingCreate := ⟨0, none⟩
def rc3 : RatingCreate := ⟨3, none⟩
def rc4 : RatingCreate := ⟨4, none⟩
def rc5 : RatingCreate := ⟨5, none⟩
def rc6 : RatingCreate := ⟨6, none⟩

/-- State after creating one record (id 1). -/
def sA : AppState := (create_toilet initialState tcPark).2

/-- State after additionally submitting cleanliness 3 to record 1. -/
def sB : AppState := (add_rating sA 1 rc3).2

/-- State after additionally submitting cleanliness 4 to record 1. -/
def sC : AppState := (add_rating sB 1 rc4).2

/-! ### Sequences of create calls (claim C3) -/

/-- Run a sequence of `create_toilet` calls, collecting the returned records. -/
def runCreates (s : AppState) : List ToiletCreate → List Toilet × AppState
  | [] => ([], s)
  | tc :: rest =>
    let p := create_toilet s tc
    let q := runCreates p.2 rest
    (p.1 :: q.1, q.2)

/-- The record returned by the witness submission of rating 3 on record 1. -/
def tB : Toilet := ((add_rating sA 1 rc3).1).toOption.getD default

/-- The record returned by the witness submission (ratings 3, 4, 5 on record
1, as in the spec's aggregation example). -/
def tC : Toilet := ((add_rating sC 1 rc5).1).toOption.getD default

/-- State after the third rating of the aggregation example. -/
def sD : AppState := (add_rating sC 1 rc5).2

/-- Agreement on every field of a record except the two derived statistics. -/
def frameEq (u v : Toilet) : Prop :=
  u.id = v.id ∧ u.name = v.name ∧ u.latitude = v.latitude ∧ u.longitude = v.longitude ∧
  u.is_free = v.is_free ∧ u.wheelchair = v.wheelchair ∧
  u.running_water = v.running_water ∧ u.indoor = v.indoor ∧
  u.open_in_winter = v.open_in_winter ∧ u.gender_neutral = v.gender_neutral ∧
  u.baby_change = v.baby_change ∧ u.menstrual_products = v.menstrual_products

/-- The derived fields of one record agree with a given score multiset:
`rating_count` is its size and `avg_cleanliness` its mean (null when empty). -/
def statOk (t : Toilet) (scores : List Int) : Prop :=
  t.rating_count = scores.length ∧
  t.avg_cleanliness =
    if scores.isEmpty then none
    else some ((scores.sum : ℚ) / (scores.length : ℚ))

/-- The spec's invariant: every stored record's cached statistics agree with
the rating events currently carrying its id. -/
def statsConsistent (s : AppState) : Prop :=
  ∀ t ∈ s.toilets_db, statOk t (ratingsFor s.ratings_db t.id)

/-- Inductive invariant carried across operations: ids are below the
counter, ids are pairwise distinct, every rating event references an already
allocated id, and the cached statistics are consistent. -/
def GoodState (s : AppState) : Prop :=
  (∀ t ∈ s.toilets_db, t.id < s.next_toilet_id) ∧
  (s.toilets_db.map (fun t => t.id)).Nodup ∧
  (∀ r ∈ s.ratings_db, r.toilet_id < s.next_toilet_id) ∧
  statsConsistent s

/-- States reachable from process start through the state-changing
operations (`get_toilet` and `list_toilets` read the state without touching
it; a failing `add_rating` returns the state unchanged and is covered by the
`rate` constructor). -/
inductive Reachable : AppState → Prop where
  | init : Reachable initialState
  | create (s : AppState) (tc : ToiletCreate) :
      Reachable s → Reachable (create_toilet s tc).2
  | rate (s : AppState) (tid : Nat) (rc : RatingCreate) :
      Reachable s → Reachable (add_rating s tid rc).2

theorem runCreates_map_id (tcs : List ToiletCreate) (s : AppState) :
    ((runCreates s tcs).1.map (fun t => t.id))
      = List.range' s.next_toilet_id tcs.length := by
  induction tcs generalizing s with
  | nil => rfl
  | cons tc rest ih =>
    exact congrArg (List.cons s.next_toilet_id) (ih (create_toilet s tc).2)

/-- C3: the ids returned by any sequence of create calls from the initial
state are exactly 1, 2, …, n (strictly increasing by 1, hence pairwise
distinct); each create appends the new record with `avg_cleanliness` null
and `rating_count` 0, assigns the current counter as id, bumps the counter,
and returns the created record. -/
theorem create_ids_sequential :
    (∀ tcs : List ToiletCreate,
        ((runCreates initialState tcs).1.map (fun t => t.id)) = List.range' 1 tcs.length ∧
        ((runCreates initialState tcs).1.map (fun t => t.id)).Nodup) ∧
    (∀ (s : AppState) (tc : ToiletCreate),
        (create_toilet s tc).2.toilets_db = s.toilets_db ++ [(create_toilet s tc).1] ∧
        (create_toilet s tc).1.id = s.next_toilet_id ∧
        (create_toilet s tc).2.next_toilet_id = s.next_toilet_id + 1 ∧
        (create_toilet s tc).1.avg_cleanliness = none ∧
        (create_toilet s tc).1.rating_count = 0) := by
  constructor
  · intro tcs
    refine ⟨runCreates_map_id tcs initialState, ?_⟩
    rw [runCreates_map_id tcs initialState]
    exact List.nodup_range' 1 tcs.length
  · intro s tc
    exact ⟨rfl, rfl, rfl, rfl, rfl⟩

/-! ### Rating validation (claims C5 and C10) -/

theorem add_rating_out_of_range (s : AppState) (tid : Nat) (rc : RatingCreate)
    (h : ¬(1 ≤ rc.cleanliness ∧ rc.cleanliness ≤ 5)) :
    add_rating s tid rc = (Except.error ApiError.invalidInput, s) := by
  unfold add_rating
  rw [if_neg h]

/-- C5: a cleanliness value outside 1–5 makes `add_rating` fail with
`invalidInput` and leaves the whole state — record store and rating event
log — unchanged. -/
theorem invalid_cleanliness_rejected (s : AppState) (tid : Nat) (rc : RatingCreate)
    (h : ¬(1 ≤ rc.cleanliness ∧ rc.cleanliness ≤ 5)) :
    (add_rating s tid rc).1 = Except.error ApiError.invalidInput ∧
    (add_rating s tid rc).2.ratings_db = s.ratings_db ∧
    (add_rating s tid rc).2.toilets_db = s.toilets_db := by
  rw [add_rating_out_of_range s tid rc h]
  exact ⟨rfl, rfl, rfl⟩

theorem invalid_cleanliness_rejected_witness :
    (¬(1 ≤ rc0.cleanliness ∧ rc0.cleanliness ≤ 5)) ∧
    (add_rating sA 1 rc0).1 = Except.error ApiError.invalidInput ∧
    (add_rating sA 1 rc0).2.ratings_db = sA.ratings_db ∧
    (add_rating sA 1 rc0).2.toilets_db = sA.toilets_db :=
  ⟨by decide, invalid_cleanliness_rejected sA 1 rc0 (by decide)⟩

/-- C10: when the cleanliness is out of range and the record does not exist,
the range check wins: `add_rating` fails with `invalidInput`, not
`notFound`. -/
theorem invalid_input_precedes_not_found (s : AppState) (tid : Nat) (rc : RatingCreate)
    (hr : ¬(1 ≤ rc.cleanliness ∧ rc.cleanliness ≤ 5))
    (_habs : ∀ t ∈ s.toilets_db, t.id ≠ tid) :
    (add_rating s tid rc).1 = Except.error ApiError.invalidInput ∧
    (add_rating s tid rc).1 ≠ Except.error ApiError.notFound := by
  rw [add_rating_out_of_range s tid rc hr]
  exact ⟨rfl, by simp⟩

theorem invalid_input_precedes_not_found_witness :
    (¬(1 ≤ rc6.cleanliness ∧ rc6.cleanliness ≤ 5)) ∧
    (∀ t ∈ initialState.toilets_db, t.id ≠ 7) ∧
    (add_rating initialState 7 rc6).1 = Except.error ApiError.invalidInput ∧
    (add_rating initialState 7 rc6).1 ≠ Except.error ApiError.notFound := by
  refine ⟨by decide, by simp [initialState], ?_, ?_⟩
  · exact (invalid_input_precedes_not_found initialState 7 rc6 (by decide)
      (by simp [initialState])).1
  · exact (invalid_input_precedes_not_found initialState 7 rc6 (by decide)
      (by simp [initialState])).2

/-! ### Name validation (claim C9) -/

/-- C9 counterexample: `create_toilet` accepts an empty name; the created
record is stored with `name = ""`, so not every stored record has a
non-empty name. -/
theorem name_nonempty_counterexample :
    (create_toilet initialState tcEmptyName).1.name = "" ∧
    (create_toilet initialState tcEmptyName).1
      ∈ (create_toilet initialState tcEmptyName).2.toilets_db :=
  ⟨rfl, by simp [create_toilet, initialState]⟩

/-- C9 amended: the source performs no non-emptiness validation on the name;
`create_toilet` accepts any string (empty included) and stores the record
with exactly the supplied name. -/
theorem create_name_unvalidated (s : AppState) (tc : ToiletCreate) :
    (create_toilet s tc).1.name = tc.name ∧
    (create_toilet s tc).1 ∈ (create_toilet s tc).2.toilets_db :=
  ⟨rfl, by simp [create_toilet]⟩

/-! ### Lookup by id (claim C6) -/

/-- C6: `get_toilet` on an id matching no record fails with `notFound`;
`add_rating` with an in-range cleanliness and an id matching no record fails
with `notFound` leaving the state unchanged; and `get_toilet` on the id of an
existing record returns a stored record carrying that id. -/
theorem lookup_by_id_correct :
    (∀ (s : AppState) (tid : Nat), (∀ t ∈ s.toilets_db, t.id ≠ tid) →
        get_toilet s tid = Except.error ApiError.notFound) ∧
    (∀ (s : AppState) (tid : Nat) (rc : RatingCreate),
        (1 ≤ rc.cleanliness ∧ rc.cleanliness ≤ 5) →
        (∀ t ∈ s.toilets_db, t.id ≠ tid) →
        (add_rating s tid rc).1 = Except.error ApiError.notFound ∧
        (add_rating s tid rc).2 = s) ∧
    (∀ (s : AppState) (tid : Nat), (∃ t ∈ s.toilets_db, t.id = tid) →
        ∃ t, get_toilet s tid = Except.ok t ∧ t.id = tid ∧ t ∈ s.toilets_db) := by
  refine ⟨?_, ?_, ?_⟩
  · intro s tid h
    unfold get_toilet
    rw [List.find?_eq_none.mpr (fun x hx => by simpa using h x hx)]
  · intro s tid rc hr h
    unfold add_rating
    rw [if_pos hr, List.find?_eq_none.mpr (fun x hx => by simpa using h x hx)]
    exact ⟨rfl, rfl⟩
  · intro s tid h
    obtain ⟨t0, ht0, hid⟩ := h
    have hsome : (s.toilets_db.find? (fun t => t.id == tid)).isSome := by
      rw [List.find?_isSome]
      exact ⟨t0, ht0, by simpa using hid⟩
    obtain ⟨t, ht⟩ := Option.isSome_iff_exists.mp hsome
    refine ⟨t, ?_, ?_, List.mem_of_find?_eq_some ht⟩
    · unfold get_toilet
      rw [ht]
    · simpa using List.find?_some ht

theorem lookup_by_id_correct_witness :
    (get_toilet initialState 7 = Except.error ApiError.notFound) ∧
    ((add_rating initialState 7 rc3).1 = Except.error ApiError.notFound ∧
      (add_rating initialState 7 rc3).2 = initialState) ∧
    (∃ t, get_toilet sA 1 = Except.ok t ∧ t.id = 1 ∧ t ∈ sA.toilets_db) := by
  refine ⟨lookup_by_id_correct.1 initialState 7 (by simp [initialState]),
          lookup_by_id_correct.2.1 initialState 7 rc3 (by decide) (by simp [initialState]),
          lookup_by_id_correct.2.2 sA 1 ?_⟩
  exact ⟨(create_toilet initialState tcPark).1,
    by simp [sA, create_toilet, initialState], rfl⟩

/-! ### Distance function (claim C7) -/

theorem radians_zero : radians 0 = 0 := by
  unfold radians; ring

theorem radians_sub_comm (a b : ℝ) : radians (a - b) = -(radians (b - a)) := by
  unfold radians; ring

theorem hav_a_symm (lat1 lon1 lat2 lon2 : ℝ) :
    Real.sin (radians (lat2 - lat1) / 2) ^ 2
      + Real.cos (radians lat1) * Real.cos (radians lat2)
        * Real.sin (radians (lon2 - lon1) / 2) ^ 2
    = Real.sin (radians (lat1 - lat2) / 2) ^ 2
      + Real.cos (radians lat2) * Real.cos (radians lat1)
        * Real.sin (radians (lon1 - lon2) / 2) ^ 2 := by
  rw [radians_sub_comm lat2 lat1, radians_sub_comm lon2 lon1, neg_div, neg_div,
      Real.sin_neg, Real.sin_neg, neg_sq, neg_sq]
  ring

/-- C7: the haversine distance (a pure function of its four real arguments)
is symmetric in the two coordinate pairs, and the distance from any point to
itself is exactly 0 — exact because the embedding computes over the reals,
the idealisation of the floating-point arithmetic the source runs. -/
theorem haversine_symm_and_identity :
    (∀ lat1 lon1 lat2 lon2 : ℝ,
        haversine_km lat1 lon1 lat2 lon2 = haversine_km lat2 lon2 lat1 lon1) ∧
    (∀ lat lon : ℝ, haversine_km lat lon lat lon = 0) := by
  constructor
  · intro lat1 lon1 lat2 lon2
    simp only [haversine_km]
    rw [hav_a_symm lat1 lon1 lat2 lon2]
  · intro lat lon
    simp only [haversine_km]
    have hA : Real.sin (radians (lat - lat) / 2) ^ 2
        + Real.cos (radians lat) * Real.cos (radians lat)
          * Real.sin (radians (lon - lon) / 2) ^ 2 = 0 := by
      rw [sub_self, sub_self, radians_zero]
      simp
    rw [hA, Real.sqrt_zero, sub_zero, Real.sqrt_one]
    unfold atan2
    rw [if_pos (show (0:ℝ) < 1 by norm_num)]
    simp

/-! ### Proximity query (claim C4) -/

open Classical in
theorem list_toilets_scan_eq_filter (lat lng r : ℝ) (ts : List Toilet) :
    list_toilets_scan lat lng r ts
      = ts.filter (fun t => decide (haversine_km lat lng t.latitude t.longitude ≤ r)) := by
  induction ts with
  | nil => rfl
  | cons t rest ih =>
    by_cases h : haversine_km lat lng t.latitude t.longitude ≤ r
    · simp [list_toilets_scan, List.filter_cons, h, ih]
    · simp [list_toilets_scan, List.filter_cons, h, ih]

open Classical in
/-- C4: the proximity query returns exactly the stored records whose
haversine distance from the center is `≤ radius_km` (boundary included), in
store insertion order (the result is the sublist of `toilets_db` selected by
the distance predicate), and an omitted radius means radius 2.0 km. -/
theorem proximity_query_correct (s : AppState) (lat lng r : ℝ) :
    (∀ t, t ∈ list_toilets s lat lng r ↔
        t ∈ s.toilets_db ∧ haversine_km lat lng t.latitude t.longitude ≤ r) ∧
    (list_toilets s lat lng r).Sublist s.toilets_db ∧
    list_toilets s lat lng r
      = s.toilets_db.filter
          (fun t => decide (haversine_km lat lng t.latitude t.longitude ≤ r)) ∧
    list_toilets_default s lat lng = list_toilets s lat lng 2 := by
  refine ⟨?_, ?_, list_toilets_scan_eq_filter lat lng r s.toilets_db, ?_⟩
  · intro t
    rw [list_toilets, list_toilets_scan_eq_filter]
    simp [List.mem_filter]
  · rw [list_toilets, list_toilets_scan_eq_filter]
    exact List.filter_sublist _
  · show list_toilets s lat lng 2.0 = list_toilets s lat lng 2
    norm_num

/-! ### Recomputation machinery (claims C1, C8, C2) -/

theorem applyStats_id (t : Toilet) (sc : List Int) : (applyStats t sc).id = t.id := by
  unfold applyStats
  split <;> rfl

theorem applyStats_frameEq (t : Toilet) (sc : List Int) : frameEq (applyStats t sc) t := by
  unfold applyStats frameEq
  split <;> exact ⟨rfl, rfl, rfl, rfl, rfl, rfl, rfl, rfl, rfl, rfl, rfl, rfl⟩

theorem ratingsFor_append (rs : List Rating) (r : Rating) (tid : Nat) :
    ratingsFor (rs ++ [r]) tid
      = ratingsFor rs tid
          ++ (if r.toilet_id == tid then [r.cleanliness] else []) := by
  unfold ratingsFor
  rw [List.filter_append, List.map_append]
  by_cases h : r.toilet_id == tid <;> simp [List.filter, h]

theorem ratingsFor_append_ne (rs : List Rating) (r : Rating) (tid : Nat)
    (h : r.toilet_id ≠ tid) : ratingsFor (rs ++ [r]) tid = ratingsFor rs tid := by
  rw [ratingsFor_append]
  simp [h]

theorem ratingsFor_append_self (rs : List Rating) (r : Rating) :
    ratingsFor (rs ++ [r]) r.toilet_id
      = ratingsFor rs r.toilet_id ++ [r.cleanliness] := by
  rw [ratingsFor_append]
  simp

theorem ratingsFor_eq_nil (rs : List Rating) (tid : Nat)
    (h : ∀ r ∈ rs, r.toilet_id ≠ tid) : ratingsFor rs tid = [] := by
  unfold ratingsFor
  rw [List.filter_eq_nil_iff.mpr (fun r hr => by simpa using h r hr)]
  rfl

theorem find?_append_first {α : Type} {p : α → Bool} (pre post : List α) (x : α)
    (hpre : ∀ u ∈ pre, ¬p u) (hx : p x) :
    (pre ++ x :: post).find? p = some x := by
  induction pre with
  | nil => simpa using List.find?_cons_of_pos post hx
  | cons a pre ih =>
    have ha : ¬p a := hpre a (by simp)
    rw [List.cons_append, List.find?_cons_of_neg _ ha]
    exact ih (fun u hu => hpre u (by simp [hu]))

/-- Splitting view of `recompute_rating_stats`'s loop: when `find?` locates a
first matching record, `updateFirst` rewrites exactly that occurrence and
nothing else. -/
theorem find?_split_updateFirst (ts : List Toilet) (tid : Nat) (t0 : Toilet)
    (h : ts.find? (fun t => t.id == tid) = some t0) (sc : List Int) :
    ∃ pre post, ts = pre ++ t0 :: post ∧ t0.id = tid ∧
      (∀ u ∈ pre, u.id ≠ tid) ∧
      updateFirst ts tid sc = pre ++ applyStats t0 sc :: post := by
  induction ts with
  | nil => cases h
  | cons t rest ih =>
    by_cases ht : (t.id == tid : Bool)
    · rw [@List.find?_cons_of_pos _ (fun u => u.id == tid) t rest ht] at h
      obtain rfl := Option.some.inj h
      refine ⟨[], rest, rfl, by simpa using ht, by simp, ?_⟩
      simp [updateFirst, ht]
    · rw [@List.find?_cons_of_neg _ (fun u => u.id == tid) t rest ht] at h
      obtain ⟨pre, post, hts, hid, hpre, hupd⟩ := ih h
      refine ⟨t :: pre, post, by rw [List.cons_append, hts], hid, ?_, ?_⟩
      · intro u hu
        rcases List.mem_cons.mp hu with rfl | hu
        · simpa using ht
        · exact hpre u hu
      · simp only [updateFirst, hupd, List.cons_append]
        rw [if_neg ht]

theorem updateFirst_map_id (ts : List Toilet) (tid : Nat) (sc : List Int) :
    (updateFirst ts tid sc).map (fun t => t.id) = ts.map (fun t => t.id) := by
  induction ts with
  | nil => rfl
  | cons t rest ih =>
    by_cases h : (t.id == tid : Bool)
    · simp [updateFirst, h, applyStats_id]
    · simp [updateFirst, h, ih]

theorem get_toilet_ok_iff (s : AppState) (tid : Nat) (t : Toilet) :
    get_toilet s tid = Except.ok t
      ↔ s.toilets_db.find? (fun u => u.id == tid) = some t := by
  unfold get_toilet
  cases h : s.toilets_db.find? (fun u => u.id == tid) <;> simp

/-- Inversion of a successful `add_rating`: the cleanliness was in range, a
first matching record existed, the rating event was appended, the statistics
of that record were recomputed from the post-append log, and exactly the
recomputed record is returned. -/
theorem add_rating_ok (s : AppState) (tid : Nat) (rc : RatingCreate)
    (t : Toilet) (s' : AppState)
    (h : add_rating s tid rc = (Except.ok t, s')) :
    (1 ≤ rc.cleanliness ∧ rc.cleanliness ≤ 5) ∧
    ∃ t0, s.toilets_db.find? (fun u => u.id == tid) = some t0 ∧
      t = applyStats t0
            (ratingsFor (s.ratings_db ++ [⟨tid, rc.cleanliness, rc.comment⟩]) tid) ∧
      s' = { s with
        toilets_db :=
          updateFirst s.toilets_db tid
            (ratingsFor (s.ratings_db ++ [⟨tid, rc.cleanliness, rc.comment⟩]) tid)
        ratings_db := s.ratings_db ++ [⟨tid, rc.cleanliness, rc.comment⟩] } := by
  by_cases hr : 1 ≤ rc.cleanliness ∧ rc.cleanliness ≤ 5
  · refine ⟨hr, ?_⟩
    unfold add_rating at h
    rw [if_pos hr] at h
    cases hfind : s.toilets_db.find? (fun u => u.id == tid) with
    | none =>
      rw [hfind] at h
      simp at h
    | some t0 =>
      rw [hfind] at h
      refine ⟨t0, rfl, ?_, ?_⟩
      · have := congrArg Prod.fst h
        simpa [recompute_rating_stats] using this.symm
      · have := congrArg Prod.snd h
        simpa [recompute_rating_stats] using this.symm
  · rw [add_rating_out_of_range s tid rc hr] at h
    simp at h

/-- C1: a successful `add_rating` stores and returns a record whose
`rating_count` is the number of rating events for that id and whose
`avg_cleanliness` is the arithmetic mean of their cleanliness values; and
recomputation over an empty event set resets the stored record's statistics
to null and 0. -/
theorem rating_aggregation_correct :
    (∀ (s : AppState) (tid : Nat) (rc : RatingCreate) (t : Toilet) (s' : AppState),
        add_rating s tid rc = (Except.ok t, s') →
        get_toilet s' tid = Except.ok t ∧
        t.rating_count = (ratingsFor s'.ratings_db tid).length ∧
        t.avg_cleanliness
          = some (((ratingsFor s'.ratings_db tid).sum : ℚ)
              / ((ratingsFor s'.ratings_db tid).length : ℚ))) ∧
    (∀ (s : AppState) (tid : Nat) (t0 : Toilet),
        get_toilet s tid = Except.ok t0 → ratingsFor s.ratings_db tid = [] →
        get_toilet (recompute_rating_stats s tid) tid
          = Except.ok { t0 with avg_cleanliness := none, rating_count := 0 }) := by
  constructor
  · intro s tid rc t s' h
    obtain ⟨hr, t0, hfind, ht, hs'⟩ := add_rating_ok s tid rc t s' h
    obtain ⟨pre, post, hts, hid, hpre, hupd⟩ :=
      find?_split_updateFirst s.toilets_db tid t0 hfind
        (ratingsFor (s.ratings_db ++ [⟨tid, rc.cleanliness, rc.comment⟩]) tid)
    have hscnil : ratingsFor (s.ratings_db ++ [⟨tid, rc.cleanliness, rc.comment⟩]) tid
        = ratingsFor s.ratings_db tid ++ [rc.cleanliness] :=
      ratingsFor_append_self s.ratings_db ⟨tid, rc.cleanliness, rc.comment⟩
    have hne : ¬(ratingsFor (s.ratings_db ++ [⟨tid, rc.cleanliness, rc.comment⟩]) tid).isEmpty := by
      rw [hscnil]
      simp
    have hrdb : s'.ratings_db = s.ratings_db ++ [⟨tid, rc.cleanliness, rc.comment⟩] := by
      rw [hs']
    refine ⟨?_, ?_, ?_⟩
    · rw [get_toilet_ok_iff]
      have hdb : s'.toilets_db = pre ++ t :: post := by
        rw [hs', ht]
        exact hupd
      rw [hdb]
      refine find?_append_first pre post t (fun u hu => by simpa using hpre u hu) ?_
      rw [ht]
      simp [applyStats_id, hid]
    · rw [hrdb, ht]
      unfold applyStats
      rw [if_neg hne]
    · rw [hrdb, ht]
      unfold applyStats
      rw [if_neg hne]
  · intro s tid t0 hget hnil
    have hfind := (get_toilet_ok_iff s tid t0).mp hget
    obtain ⟨pre, post, hts, hid, hpre, hupd⟩ :=
      find?_split_updateFirst s.toilets_db tid t0 hfind (ratingsFor s.ratings_db tid)
    rw [get_toilet_ok_iff]
    show (updateFirst s.toilets_db tid (ratingsFor s.ratings_db tid)).find?
        (fun u => u.id == tid) = _
    rw [hupd, hnil]
    have : applyStats t0 [] = { t0 with avg_cleanliness := none, rating_count := 0 } := rfl
    rw [this]
    refine find?_append_first pre post _ (fun u hu => by simpa using hpre u hu) ?_
    simpa using hid

theorem rating_aggregation_correct_witness :
    add_rating sC 1 rc5 = (Except.ok tC, sD) ∧
    (get_toilet sD 1 = Except.ok tC ∧
      tC.rating_count = (ratingsFor sD.ratings_db 1).length ∧
      tC.avg_cleanliness = some (((ratingsFor sD.ratings_db 1).sum : ℚ)
        / ((ratingsFor sD.ratings_db 1).length : ℚ))) ∧
    tC.rating_count = 3 ∧ tC.avg_cleanliness = some 4 := by
  have h : add_rating sC 1 rc5 = (Except.ok tC, sD) := rfl
  have hmain := rating_aggregation_correct.1 sC 1 rc5 tC sD h
  have hlist : ratingsFor sD.ratings_db 1 = [3, 4, 5] := by decide
  refine ⟨h, hmain, ?_, ?_⟩
  · rw [hmain.2.1, hlist]
    rfl
  · rw [hmain.2.2, hlist]
    norm_num [show ([3, 4, 5] : List Int).sum = 12 from rfl]

/-- C8: a successful rating submission replaces exactly one stored record —
the (first) one carrying the submitted id — by the returned record, which
agrees with it on every field other than the two derived statistics; all
other records and the id counter are untouched, and no record is added or
removed. -/
theorem rating_submission_frame (s : AppState) (tid : Nat) (rc : RatingCreate)
    (t : Toilet) (s' : AppState)
    (h : add_rating s tid rc = (Except.ok t, s')) :
    s'.next_toilet_id = s.next_toilet_id ∧
    ∃ pre t0 post,
      s.toilets_db = pre ++ t0 :: post ∧ t0.id = tid ∧
      s'.toilets_db = pre ++ t :: post ∧ frameEq t t0 := by
  obtain ⟨hr, t0, hfind, ht, hs'⟩ := add_rating_ok s tid rc t s' h
  obtain ⟨pre, post, hts, hid, hpre, hupd⟩ :=
    find?_split_updateFirst s.toilets_db tid t0 hfind
      (ratingsFor (s.ratings_db ++ [⟨tid, rc.cleanliness, rc.comment⟩]) tid)
  refine ⟨by rw [hs'], pre, t0, post, hts, hid, ?_, ?_⟩
  · rw [hs', ht]
    exact hupd
  · rw [ht]
    exact applyStats_frameEq t0 _

theorem rating_submission_frame_witness :
    add_rating sA 1 rc3 = (Except.ok tB, sB) ∧
    sB.next_toilet_id = sA.next_toilet_id ∧
    ∃ pre t0 post,
      sA.toilets_db = pre ++ t0 :: post ∧ t0.id = 1 ∧
      sB.toilets_db = pre ++ tB :: post ∧ frameEq tB t0 := by
  have h : add_rating sA 1 rc3 = (Except.ok tB, sB) := rfl
  exact ⟨h, rating_submission_frame sA 1 rc3 tB sB h⟩

/-! ### Global consistency invariant (claim C2) -/

theorem applyStats_statOk (t : Toilet) (sc : List Int) :
    statOk (applyStats t sc) sc := by
  rcases sc with _ | ⟨a, sc⟩
  · simp [applyStats, statOk]
  · simp [applyStats, statOk]

theorem goodState_initial : GoodState initialState := by
  refine ⟨?_, ?_, ?_, ?_⟩ <;> simp [initialState, statsConsistent]

theorem goodState_create (s : AppState) (tc : ToiletCreate)
    (hs : GoodState s) : GoodState (create_toilet s tc).2 := by
  obtain ⟨hbound, hnodup, hrbound, hcons⟩ := hs
  have hdb : (create_toilet s tc).2.toilets_db
      = s.toilets_db ++ [(create_toilet s tc).1] := rfl
  have hnew : ∀ r ∈ s.ratings_db, r.toilet_id ≠ (create_toilet s tc).1.id :=
    fun r hr => Nat.ne_of_lt (hrbound r hr)
  refine ⟨?_, ?_, ?_, ?_⟩
  · intro t ht
    rw [hdb] at ht
    rcases List.mem_append.mp ht with ht | ht
    · exact Nat.lt_succ_of_lt (hbound t ht)
    · rw [List.mem_singleton.mp ht]
      exact Nat.lt_succ_self _
  · rw [hdb, List.map_append]
    refine List.Nodup.append hnodup (List.nodup_singleton _) ?_
    intro a ha hb
    obtain ⟨t, ht, hta⟩ := List.mem_map.mp ha
    have hb' : a = s.next_toilet_id := by simpa using hb
    rw [← hta] at hb'
    exact absurd (hbound t ht) (by rw [hb']; exact Nat.lt_irrefl _)
  · intro r hr
    exact Nat.lt_succ_of_lt (hrbound r hr)
  · intro t ht
    rw [hdb] at ht
    rcases List.mem_append.mp ht with ht | ht
    · exact hcons t ht
    · rw [List.mem_singleton.mp ht]
      have hnil : ratingsFor s.ratings_db (create_toilet s tc).1.id = [] :=
        ratingsFor_eq_nil _ _ hnew
      show statOk (create_toilet s tc).1 (ratingsFor s.ratings_db (create_toilet s tc).1.id)
      rw [hnil]
      exact ⟨rfl, rfl⟩

/-- Recomputation after appending one event keeps every record's statistics
consistent when ids are pairwise distinct. -/
theorem statsConsistent_updateFirst (ts : List Toilet) (rs : List Rating) (nr : Rating)
    (hnodup : (ts.map (fun t => t.id)).Nodup)
    (hcons : ∀ u ∈ ts, statOk u (ratingsFor rs u.id)) :
    ∀ u ∈ updateFirst ts nr.toilet_id (ratingsFor (rs ++ [nr]) nr.toilet_id),
      statOk u (ratingsFor (rs ++ [nr]) u.id) := by
  induction ts with
  | nil => intro u hu; cases hu
  | cons t rest ih =>
    intro u hu
    have hnodup' : t.id ∉ rest.map (fun t => t.id) ∧ (rest.map (fun t => t.id)).Nodup := by
      rw [List.map_cons] at hnodup
      exact List.nodup_cons.mp hnodup
    by_cases ht : (t.id == nr.toilet_id : Bool)
    · rw [show updateFirst (t :: rest) nr.toilet_id (ratingsFor (rs ++ [nr]) nr.toilet_id)
          = applyStats t (ratingsFor (rs ++ [nr]) nr.toilet_id) :: rest by
            simp [updateFirst, ht]] at hu
      rcases List.mem_cons.mp hu with rfl | hu
      · have hid : (applyStats t (ratingsFor (rs ++ [nr]) nr.toilet_id)).id
            = nr.toilet_id := by
          rw [applyStats_id]
          simpa using ht
        rw [hid]
        exact applyStats_statOk t _
      · have hut : u.id ≠ t.id := by
          intro hcontra
          exact hnodup'.1 (hcontra ▸ List.mem_map_of_mem (fun t => t.id) hu)
        have : u.id ≠ nr.toilet_id := by
          rw [show t.id = nr.toilet_id from by simpa using ht] at hut
          exact hut
        rw [ratingsFor_append_ne rs nr u.id (fun hcontra => this hcontra.symm)]
        exact hcons u (List.mem_cons_of_mem t hu)
    · rw [show updateFirst (t :: rest) nr.toilet_id (ratingsFor (rs ++ [nr]) nr.toilet_id)
          = t :: updateFirst rest nr.toilet_id (ratingsFor (rs ++ [nr]) nr.toilet_id) by
            simp [updateFirst, ht]] at hu
      rcases List.mem_cons.mp hu with rfl | hu
      · have : nr.toilet_id ≠ u.id := by
          intro hcontra
          exact ht (by simp [hcontra])
        rw [ratingsFor_append_ne rs nr u.id this]
        exact hcons u (List.mem_cons_self _ _)
      · exact ih hnodup'.2 (fun v hv => hcons v (List.mem_cons_of_mem t hv)) u hu

theorem goodState_add_rating (s : AppState) (tid : Nat) (rc : RatingCreate)
    (hs : GoodState s) : GoodState (add_rating s tid rc).2 := by
  obtain ⟨hbound, hnodup, hrbound, hcons⟩ := hs
  by_cases hr : 1 ≤ rc.cleanliness ∧ rc.cleanliness ≤ 5
  · cases hfind : s.toilets_db.find? (fun u => u.id == tid) with
    | none =>
      have hst : (add_rating s tid rc).2 = s := by
        unfold add_rating
        rw [if_pos hr, hfind]
      rw [hst]
      exact ⟨hbound, hnodup, hrbound, hcons⟩
    | some t0 =>
      have htid : tid < s.next_toilet_id := by
        have h1 : t0.id = tid := by simpa using List.find?_some hfind
        have h2 := List.mem_of_find?_eq_some hfind
        exact h1 ▸ hbound t0 h2
      have hst : (add_rating s tid rc).2 = { s with
          toilets_db :=
            updateFirst s.toilets_db tid
              (ratingsFor (s.ratings_db ++ [⟨tid, rc.cleanliness, rc.comment⟩]) tid)
          ratings_db := s.ratings_db ++ [⟨tid, rc.cleanliness, rc.comment⟩] } := by
        unfold add_rating
        rw [if_pos hr, hfind]
        rfl
      rw [hst]
      refine ⟨?_, ?_, ?_, ?_⟩
      · intro t ht
        have hmem : t.id ∈ (updateFirst s.toilets_db tid
            (ratingsFor (s.ratings_db ++ [⟨tid, rc.cleanliness, rc.comment⟩]) tid)).map
              (fun t => t.id) := List.mem_map_of_mem _ ht
        rw [updateFirst_map_id] at hmem
        obtain ⟨t', ht', hid⟩ := List.mem_map.mp hmem
        exact hid ▸ hbound t' ht'
      · show ((updateFirst s.toilets_db tid _).map (fun t => t.id)).Nodup
        rw [updateFirst_map_id]
        exact hnodup
      · intro r hr'
        rcases List.mem_append.mp hr' with hr' | hr'
        · exact hrbound r hr'
        · rw [List.mem_singleton.mp hr']
          exact htid
      · intro t ht
        exact statsConsistent_updateFirst s.toilets_db s.ratings_db
          ⟨tid, rc.cleanliness, rc.comment⟩ hnodup hcons t ht
  · have hst : (add_rating s tid rc).2 = s := by
      rw [add_rating_out_of_range s tid rc hr]
    rw [hst]
    exact ⟨hbound, hnodup, hrbound, hcons⟩

theorem goodState_reachable (s : AppState) (h : Reachable s) : GoodState s := by
  induction h with
  | init => exact goodState_initial
  | create s tc _ ih => exact goodState_create s tc ih
  | rate s tid rc _ ih => exact goodState_add_rating s tid rc ih

/-- C2: in every state reachable through any sequence of operations
(creates and rating submissions, successful or failed; reads do not change
the state), every record's `rating_count` equals the number of rating events
carrying its id and `avg_cleanliness` equals their mean (null when there are
none). -/
theorem stats_always_consistent (s : AppState) (h : Reachable s) :
    statsConsistent s :=
  (goodState_reachable s h).2.2.2

theorem stats_always_consistent_witness : statsConsistent sC :=
  stats_always_consistent sC
    (Reachable.rate sB 1 rc4 (Reachable.rate sA 1 rc3
      (Reachable.create initialState tcPark Reachable.init)))

end PortaSpotty
